import Mathlib

/-!
Verification development for the `open_deep_research` repository.

The Python sources under `src/deepsearch` and `src/deep_thinking` are shallowly
embedded as Lean definitions: pure computations become Lean functions, the
LangGraph workflow becomes an explicit step function over an explicit state
type driven by a list of oracle values (one per external-collaborator call),
the SQLite store becomes an association list from job ids to rows, and Python
exceptions become `Except`/`Option` values.  Python `float` comparisons against
the literals `0.3` and `0.8` are modelled as exact rational comparisons
(`10*overlap > 3*m`, `5*overlap > 4*m`); these agree with the IEEE-754
comparison for all inputs whose exact ratio is not inside the one-ulp rounding
interval of the literal, and in particular at every concrete input used below.
-/

namespace DeepSearch

/-! ## String helpers shared by the agents

`splitWords` models Python `str.split()` (split on whitespace runs, dropping
empty pieces).  `dedupFirst` models iterating a Python `dict`/grouping that
keeps the first occurrence of each key in insertion order.  Character
classes (`Char.isWhitespace`, `Char.isAlphanum`, `Char.toLower`) cover the
ASCII range of Python's whitespace set, `\w` and `str.lower`; the embedding
is exact on ASCII text, which every concrete input below uses.
-/

def splitWordsAux (cur : List Char) : List Char → List String
  | [] => if cur.isEmpty then [] else [cur.reverse.asString]
  | c :: cs =>
    if c.isWhitespace then
      if cur.isEmpty then splitWordsAux [] cs
      else cur.reverse.asString :: splitWordsAux [] cs
    else splitWordsAux (c :: cur) cs

def splitWords (s : String) : List String :=
  splitWordsAux [] s.toList

/-- `str.lower()`, ASCII case folding applied per character. -/
def lowerString (s : String) : String :=
  (s.toList.map Char.toLower).asString

/-- Python string `<` (lexicographic by code point), used through the sort key
tuples of `list.sort`. -/
def charListLt : List Char → List Char → Bool
  | [], [] => false
  | [], _ :: _ => true
  | _ :: _, [] => false
  | a :: as, b :: bs => if a < b then true else if b < a then false else charListLt as bs

def stringLt (a b : String) : Bool :=
  charListLt a.toList b.toList

def dedupFirstAux (seen : List String) : List String → List String
  | [] => []
  | x :: xs => if seen.contains x then dedupFirstAux seen xs else x :: dedupFirstAux (x :: seen) xs

def dedupFirst (l : List String) : List String :=
  dedupFirstAux [] l

theorem mem_dedupFirstAux (a : String) :
    ∀ (l seen : List String), a ∈ dedupFirstAux seen l ↔ (a ∈ l ∧ a ∉ seen) := by
  intro l
  induction l with
  | nil => intro seen; simp [dedupFirstAux]
  | cons x xs ih =>
    intro seen
    by_cases hx : seen.contains x
    · rw [dedupFirstAux, if_pos hx]
      rw [ih seen]
      constructor
      · rintro ⟨h1, h2⟩; exact ⟨List.mem_cons_of_mem _ h1, h2⟩
      · rintro ⟨h1, h2⟩
        rcases List.mem_cons.mp h1 with rfl | h1
        · exact absurd (by simpa using hx) h2
        · exact ⟨h1, h2⟩
    · rw [dedupFirstAux, if_neg hx]
      rw [List.mem_cons, ih (x :: seen)]
      constructor
      · rintro (rfl | ⟨h1, h2⟩)
        · exact ⟨List.mem_cons_self _ _, by simpa using hx⟩
        · exact ⟨List.mem_cons_of_mem _ h1, fun hc => h2 (List.mem_cons_of_mem _ hc)⟩
      · rintro ⟨h1, h2⟩
        by_cases hax : a = x
        · exact Or.inl hax
        · rcases List.mem_cons.mp h1 with rfl | h1
          · exact Or.inl rfl
          · exact Or.inr ⟨h1, fun hc => by
              rcases List.mem_cons.mp hc with rfl | hc
              · exact hax rfl
              · exact h2 hc⟩

theorem dedupFirst_sound (l : List String) (a : String) : a ∈ dedupFirst l ↔ a ∈ l := by
  rw [dedupFirst, mem_dedupFirstAux]
  simp

/-! ## Data model (`src/deepsearch/state.py`)

`ResearchQuestion`, `Finding`, `VerifiedFinding`, `ReflectionResult`,
`SearchRecord`, `Section` (renamed `ReportSection` to avoid the Lean keyword)
and the two enums.  Pydantic `datetime` fields are modelled by their
`isoformat` string (which is exactly what `model_dump(mode="json")`
serialises) and `float` credibility scores by `Rat`.
-/

inductive ResearchStatus where
  | pending | running | paused | completed | failed
deriving DecidableEq, Repr

def ResearchStatus.value : ResearchStatus → String
  | .pending => "pending"
  | .running => "running"
  | .paused => "paused"
  | .completed => "completed"
  | .failed => "failed"

def ResearchStatus.ofValue (s : String) : Option ResearchStatus :=
  if s = "pending" then some .pending
  else if s = "running" then some .running
  else if s = "paused" then some .paused
  else if s = "completed" then some .completed
  else if s = "failed" then some .failed
  else none

theorem researchStatus_ofValue_value (st : ResearchStatus) :
    ResearchStatus.ofValue st.value = some st := by
  cases st <;> rfl

inductive SearchStrategy where
  | general | academic | news | technical | legal | financial
deriving DecidableEq, Repr

def SearchStrategy.value : SearchStrategy → String
  | .general => "general"
  | .academic => "academic"
  | .news => "news"
  | .technical => "technical"
  | .legal => "legal"
  | .financial => "financial"

def SearchStrategy.ofValue (s : String) : Option SearchStrategy :=
  if s = "general" then some .general
  else if s = "academic" then some .academic
  else if s = "news" then some .news
  else if s = "technical" then some .technical
  else if s = "legal" then some .legal
  else if s = "financial" then some .financial
  else none

theorem searchStrategy_ofValue_value (st : SearchStrategy) :
    SearchStrategy.ofValue st.value = some st := by
  cases st <;> rfl

structure ResearchQuestion where
  id : String
  question : String
  priority : Int := 1
  keywords : List String := []
  rationale : String := ""
  category : String := "general"
  dependencies : List String := []
  order : Int := 0
  search_strategy : SearchStrategy := .general
  search_operators : List String := []
deriving DecidableEq, Repr

structure Finding where
  question : String
  source : String
  title : String
  content : String
  credibility : Rat := 1/2
  timestamp : String := ""
deriving DecidableEq, Repr

structure VerifiedFinding where
  finding : Finding
  verification_status : String
  supporting_sources : List String := []
  conflicting_sources : List String := []
  notes : String := ""
deriving DecidableEq, Repr

structure ReflectionResult where
  is_complete : Bool
  gaps : List String := []
  new_questions : List ResearchQuestion := []
  reasoning : String := ""
deriving DecidableEq, Repr

structure SearchRecord where
  query : String
  provider : String
  results_count : Nat
  timestamp : String := ""
deriving DecidableEq, Repr

structure ReportSection where
  title : String
  content : String
  sources : List String := []
deriving DecidableEq, Repr

structure Conflict where
  finding_a : Finding
  finding_b : Finding
  conflict_description : String
  resolution : Option String := none
deriving DecidableEq, Repr

/-! ## Verification agent (`src/deepsearch/agents/verifier.py`)

`VerifierAgent.verify`, `VerifierAgent._verify_group` and
`VerifierAgent._content_similar`.  The LLM held by the agent is never invoked
on this path, so the functions are pure.
-/

namespace Verifier

/-- Word set of a string: `set(s.lower().split())`.  Represented as the list of
distinct words in first-occurrence order; only membership and cardinality are
ever used. -/
def wordSet (s : String) : List String :=
  dedupFirst (splitWords (lowerString s))

/-- `VerifierAgent._content_similar`: keyword-overlap ratio against the smaller
word set, strictly above 0.3 (exact-rational model of the float comparison). -/
def contentSimilar (a b : String) : Bool :=
  let aWords := wordSet a
  let bWords := wordSet b
  if aWords.isEmpty || bWords.isEmpty then false
  else
    let overlap := (aWords.filter (fun w => bWords.contains w)).length
    decide (3 * min aWords.length bWords.length < 10 * overlap)

/-- Sources of the findings supporting `finding` inside its group: similar
content from a different source (`_verify_group`, the `supporting`
comprehension). -/
def supportingOf (findings : List Finding) (finding : Finding) : List String :=
  (findings.filter (fun f =>
    f.source ≠ finding.source && contentSimilar finding.content f.content)).map
    (fun f => f.source)

/-- One output entry of `_verify_group`: the `>= 2` status assignment is
immediately overridden by the `== 1` branch in the source, so one supporting
partner suffices for `confirmed`. -/
def groupEntry (findings : List Finding) (finding : Finding) : VerifiedFinding :=
  let supporting := supportingOf findings finding
  let status := if 2 ≤ supporting.length then "confirmed" else "unverified"
  let status := if supporting.length = 1 then "confirmed" else status
  { finding := finding
    verification_status := status
    supporting_sources := supporting
    conflicting_sources := [] }

/-- Body of `VerifierAgent._verify_group` for a group of findings sharing one
question. -/
def verifyGroup (findings : List Finding) : List VerifiedFinding :=
  findings.map (groupEntry findings)

/-- `VerifierAgent.verify`: empty input yields `[]`; up to three findings are
all returned `unverified` without any corroboration check; otherwise findings
are grouped by question (insertion order, as Python `defaultdict`) and each
group is passed to `_verify_group`. -/
def verify (findings : List Finding) : List VerifiedFinding :=
  if findings.isEmpty then []
  else if findings.length ≤ 3 then
    findings.map (fun f =>
      { finding := f
        verification_status := "unverified"
        supporting_sources := []
        conflicting_sources := [] })
  else
    let questions := dedupFirst (findings.map (fun f => f.question))
    questions.flatMap (fun q => verifyGroup (findings.filter (fun f => f.question = q)))

theorem groupEntry_finding (g : List Finding) (f : Finding) :
    (groupEntry g f).finding = f := rfl

theorem groupEntry_status (g : List Finding) (f : Finding) :
    (groupEntry g f).verification_status =
      if (supportingOf g f).length = 1 then "confirmed"
      else if 2 ≤ (supportingOf g f).length then "confirmed" else "unverified" := rfl

theorem groupEntry_status_cases (g : List Finding) (f : Finding) :
    ((groupEntry g f).verification_status = "confirmed" ∨
      (groupEntry g f).verification_status = "unverified") ∧
    ((groupEntry g f).verification_status = "confirmed" ↔ 0 < (supportingOf g f).length) := by
  rw [groupEntry_status]
  generalize (supportingOf g f).length = n
  match n with
  | 0 => simp
  | 1 => simp
  | n + 2 =>
    have h1 : ¬ (n + 2 = 1) := by omega
    have h2 : 2 ≤ n + 2 := by omega
    simp [h1, h2]

theorem supportingOf_pos_iff (g : List Finding) (f : Finding) :
    0 < (supportingOf g f).length ↔
      ∃ x ∈ g, x.source ≠ f.source ∧ Verifier.contentSimilar f.content x.content = true := by
  rw [supportingOf, List.length_map, ← List.countP_eq_length_filter, List.countP_pos_iff]
  constructor
  · rintro ⟨x, hx, hpx⟩
    rw [Bool.and_eq_true, decide_eq_true_iff] at hpx
    exact ⟨x, hx, hpx.1, hpx.2⟩
  · rintro ⟨x, hx, h1, h2⟩
    exact ⟨x, hx, by rw [Bool.and_eq_true, decide_eq_true_iff]; exact ⟨h1, h2⟩⟩

theorem verifyGroup_complete (g : List Finding) (f : Finding) (hf : f ∈ g) :
    ∃ v ∈ Verifier.verifyGroup g, v.finding = f :=
  ⟨groupEntry g f, List.mem_map.mpr ⟨f, hf, rfl⟩, rfl⟩

theorem verifyGroup_spec (g : List Finding) (v : VerifiedFinding)
    (hv : v ∈ Verifier.verifyGroup g) :
    v.finding ∈ g ∧
    (v.verification_status = "confirmed" ∨ v.verification_status = "unverified") ∧
    (v.verification_status = "confirmed" ↔
      ∃ x ∈ g, x.source ≠ v.finding.source ∧
        Verifier.contentSimilar v.finding.content x.content = true) := by
  rcases List.mem_map.mp hv with ⟨f, hf, rfl⟩
  rcases groupEntry_status_cases g f with ⟨hdich, hiff⟩
  rw [groupEntry_finding]
  exact ⟨hf, hdich, hiff.trans (supportingOf_pos_iff g f)⟩

/-- C1 (amended).  When more than three findings are accumulated,
`VerifierAgent.verify` marks a finding `confirmed` exactly when some other
finding for the same question comes from a different source with
keyword overlap above the threshold; every finding appears in the output, and
every output status is `confirmed` or `unverified`. -/
theorem verify_confirmed_iff_corroborated (findings : List Finding)
    (h : 3 < findings.length) :
    (∀ f ∈ findings, ∃ v ∈ Verifier.verify findings, v.finding = f) ∧
    (∀ v ∈ Verifier.verify findings,
      v.finding ∈ findings ∧
      (v.verification_status = "confirmed" ∨ v.verification_status = "unverified") ∧
      (v.verification_status = "confirmed" ↔
        ∃ g ∈ findings, g.question = v.finding.question ∧ g.source ≠ v.finding.source ∧
          Verifier.contentSimilar v.finding.content g.content = true)) := by
  have hne : ¬ (findings.isEmpty = true) := by
    cases findings with
    | nil => simp at h
    | cons a l => simp
  have hgt : ¬ (findings.length ≤ 3) := Nat.not_le.mpr h
  rw [Verifier.verify, if_neg hne, if_neg hgt]
  constructor
  · intro f hf
    have hq : f.question ∈ dedupFirst (findings.map (fun x => x.question)) :=
      (dedupFirst_sound _ _).mpr (List.mem_map.mpr ⟨f, hf, rfl⟩)
    have hfg : f ∈ findings.filter (fun x => x.question = f.question) :=
      List.mem_filter.mpr ⟨hf, by simp⟩
    rcases verifyGroup_complete _ f hfg with ⟨v, hv, hvf⟩
    exact ⟨v, List.mem_flatMap.mpr ⟨f.question, hq, hv⟩, hvf⟩
  · intro v hv
    rcases List.mem_flatMap.mp hv with ⟨q, _, hvg⟩
    rcases verifyGroup_spec _ v hvg with ⟨hmem, hdich, hiff⟩
    rcases List.mem_filter.mp hmem with ⟨hvfind, hvq⟩
    have hvq' : v.finding.question = q := by simpa using hvq
    refine ⟨hvfind, hdich, hiff.trans ?_⟩
    constructor
    · rintro ⟨x, hx, hxs, hxc⟩
      rcases List.mem_filter.mp hx with ⟨hx1, hx2⟩
      have hx2' : x.question = q := by simpa using hx2
      exact ⟨x, hx1, by rw [hx2', hvq'], hxs, hxc⟩
    · rintro ⟨x, hx, hxq, hxs, hxc⟩
      refine ⟨x, List.mem_filter.mpr ⟨hx, by simp [hxq, hvq']⟩, hxs, hxc⟩

def exF1 : Finding :=
  { question := "q1", source := "a.com", title := "t1"
    content := "rust is a fast systems language" }

def exF2 : Finding :=
  { question := "q1", source := "b.com", title := "t2"
    content := "rust is a safe systems language" }

def exF3 : Finding :=
  { question := "q2", source := "c.com", title := "t3"
    content := "the capital of france is paris" }

def exF4 : Finding :=
  { question := "q2", source := "d.com", title := "t4"
    content := "completely different words here" }

/-- C1 counterexample.  Exactly the spec scenario (two corroborating findings
for one question from different sources with well over 30% word overlap, plus
one unrelated single-source finding) hits the `len(findings) <= 3` fast path
of `VerifierAgent.verify`, so all three findings come back `unverified` and
none is `confirmed`. -/
theorem verify_three_findings_all_unverified :
    (Verifier.verify [exF1, exF2, exF3]).map (fun v => v.verification_status) =
      ["unverified", "unverified", "unverified"] ∧
    exF1.question = exF2.question ∧ exF1.source ≠ exF2.source ∧
    Verifier.contentSimilar exF1.content exF2.content = true := by
  decide

/-- Witness for the amended C1 theorem at a concrete four-finding input. -/
theorem verify_confirmed_iff_corroborated_witness :
    3 < ([exF1, exF2, exF3, exF4] : List Finding).length ∧
    (∀ f ∈ [exF1, exF2, exF3, exF4],
      ∃ v ∈ Verifier.verify [exF1, exF2, exF3, exF4], v.finding = f) :=
  ⟨by decide, (verify_confirmed_iff_corroborated [exF1, exF2, exF3, exF4] (by decide)).1⟩

end Verifier

/-! ## Planning agent (`src/deepsearch/agents/planner.py`)

`PlannerAgent.plan` and its helpers `_detect_domain`,
`_deduplicate_questions`, `_build_search_operators`, `_sort_questions`.  The
LLM response is abstracted by `UpstreamOutcome`: after the brace-extraction
step the reply either fails `json.loads` (`jsonError`, a caught
`JSONDecodeError`), parses to a non-dict value (`notObject`; `data.get` then
raises `AttributeError`, which is not in the caught
`(JSONDecodeError, TypeError, KeyError)` tuple), parses to a dict whose
`questions` value is not iterable as a list (`questionsNotList`, a caught
`TypeError`), or yields a list of question entries.  Each entry is itself
either a non-dict (`.get` raises an uncaught `AttributeError`), a dict missing
the mandatory `question` key (a caught `KeyError`), or a well-formed dict
(`RawQuestion`; `none` fields model absent keys whose `.get` defaults apply).
`freshId` stands for the timestamp-based default id and `currentYear` for
`datetime.now().year`. -/

namespace Planner

structure RawQuestion where
  id : Option String := none
  question : String
  priority : Option Int := none
  keywords : Option (List String) := none
  rationale : Option String := none
  category : Option String := none
  dependencies : Option (List String) := none
  order : Option Int := none
  search_strategy : Option String := none
  search_operators : Option (List String) := none
deriving DecidableEq, Repr

inductive UpstreamItem where
  | notDict
  | missingQuestion
  | item (q : RawQuestion)
deriving DecidableEq, Repr

inductive UpstreamOutcome where
  | jsonError
  | notObject
  | questionsNotList
  | object (questions : List UpstreamItem)
deriving DecidableEq, Repr

/-- Keyword table `DOMAIN_HINTS`, in source insertion order. -/
def DOMAIN_KEYWORDS : List (SearchStrategy × List String) :=
  [(.academic, ["paper", "research", "study", "arxiv", "journal", "conference", "survey"]),
   (.news, ["news", "latest", "breaking", "report", "announced", "recently"]),
   (.technical, ["documentation", "docs", "github", "tutorial", "implementation", "code"]),
   (.legal, ["law", "regulation", "policy", "compliance", "legal", "act"]),
   (.financial, ["stock", "market", "finance", "earnings", "revenue", "investment"])]

/-- `PlannerAgent._detect_domain`: first strategy owning a keyword that occurs
as a substring of the lowercased topic. -/
def detectDomain (topic : String) : SearchStrategy :=
  let topicLower := (lowerString topic).toList
  match DOMAIN_KEYWORDS.find?
      (fun p => p.2.any (fun k => decide (List.IsInfix k.toList topicLower))) with
  | some p => p.1
  | none => .general

/-- Signature normalisation in `_deduplicate_questions`: lowercase, drop
characters that are neither word characters nor whitespace, collapse
whitespace runs, strip. -/
def normalizeSignature (s : String) : String :=
  let lowered := s.toList.map Char.toLower
  let cleaned := lowered.filter (fun c => c.isAlphanum || c = '_' || c.isWhitespace)
  String.intercalate " " (splitWordsAux [] cleaned)

/-- Duplicate test of one signature against one seen signature: substring
containment in either direction, or word-set overlap ratio above 0.8 against
the larger word set (exact-rational model of the float comparison). -/
def isDuplicateSig (sig existing : String) : Bool :=
  if decide (List.IsInfix sig.toList existing.toList) ||
      decide (List.IsInfix existing.toList sig.toList) then true
  else
    let sigWords := dedupFirst (splitWords sig)
    let existingWords := dedupFirst (splitWords existing)
    if 0 < sigWords.length && 0 < existingWords.length then
      decide (4 * max sigWords.length existingWords.length <
        5 * (sigWords.filter (fun w => existingWords.contains w)).length)
    else false

def dedupQuestionsAux (seen : List String) : List ResearchQuestion → List ResearchQuestion
  | [] => []
  | q :: rest =>
    let sig := normalizeSignature q.question
    if seen.any (fun existing => isDuplicateSig sig existing) then
      dedupQuestionsAux seen rest
    else
      q :: dedupQuestionsAux (sig :: seen) rest

/-- `PlannerAgent._deduplicate_questions`. -/
def deduplicateQuestions (questions : List ResearchQuestion) : List ResearchQuestion :=
  dedupQuestionsAux [] questions

/-- `PlannerAgent._build_search_operators`. -/
def buildSearchOperators (question : ResearchQuestion) (strategy : SearchStrategy)
    (currentYear : Int) : List String :=
  let operators := question.search_operators
  match strategy with
  | .academic =>
    if operators.any (fun op => decide (List.IsInfix ("arxiv").toList op.toList)) then operators
    else operators ++ ["site:arxiv.org OR site:scholar.google.com"]
  | .technical =>
    if operators.any (fun op => decide (List.IsInfix ("github").toList op.toList)) then operators
    else operators ++ ["site:github.com OR site:stackoverflow.com"]
  | .news =>
    if operators.any (fun op => decide (List.IsInfix ("site:").toList op.toList)) then operators
    else operators ++ ["after:" ++ toString (currentYear - 1)]
  | _ => operators

/-- Conversion of one well-formed question dict to a `ResearchQuestion`
(the `.get` defaults of `plan`, the guarded `SearchStrategy` cast, and the
operator enrichment). -/
def convertQuestion (detected : SearchStrategy) (freshId : String) (currentYear : Int)
    (r : RawQuestion) : ResearchQuestion :=
  let strategyStr := r.search_strategy.getD detected.value
  let strategy := (SearchStrategy.ofValue strategyStr).getD detected
  let q : ResearchQuestion :=
    { id := r.id.getD freshId
      question := r.question
      priority := r.priority.getD 3
      keywords := r.keywords.getD []
      rationale := r.rationale.getD ""
      category := r.category.getD "general"
      dependencies := r.dependencies.getD []
      order := r.order.getD 0
      search_strategy := strategy
      search_operators := r.search_operators.getD [] }
  { q with search_operators := buildSearchOperators q strategy currentYear }

/-- Sequential conversion of the question dicts; the first bad entry raises
(`AttributeError` uncaught, `KeyError` caught by the surrounding `except`). -/
def convertItems (detected : SearchStrategy) (freshId : String) (currentYear : Int) :
    List UpstreamItem → Except String (List ResearchQuestion)
  | [] => .ok []
  | .notDict :: _ => .error "AttributeError"
  | .missingQuestion :: _ => .error "KeyError"
  | .item r :: rest =>
    (convertItems detected freshId currentYear rest).map
      (fun qs => convertQuestion detected freshId currentYear r :: qs)

structure SortState where
  visited : List String
  result : List ResearchQuestion
deriving DecidableEq, Repr

/-- `question_map[q_id]`: the dict comprehension keeps the last question with
a given id. -/
def questionMapLookup (questions : List ResearchQuestion) (i : String) :
    Option ResearchQuestion :=
  questions.reverse.find? (fun q => q.id = i)

/-- The recursive `visit` of `_sort_questions`, with an explicit fuel.  Every
recursive frame of the Python original adds a fresh mapped id to `path`, so
its depth is bounded by the number of distinct mapped ids plus one; fuel
`questions.length + 1` therefore never runs out on the call from
`sortQuestions`. -/
def visit (questions : List ResearchQuestion) :
    Nat → String → List String → SortState → SortState
  | 0, _, _, st => st
  | fuel + 1, q_id, path, st =>
    if st.visited.contains q_id then st
    else if path.contains q_id then st
    else
      match questionMapLookup questions q_id with
      | none => st
      | some q =>
        let st1 := q.dependencies.foldl
          (fun acc dep => visit questions fuel dep (q_id :: path) acc) st
        { visited := q_id :: st1.visited, result := st1.result ++ [q] }

/-- The key of the final `result.sort(key=lambda x: (x.category, x.order,
-x.priority))`, as a boolean total preorder. -/
def sortKeyLe (a b : ResearchQuestion) : Bool :=
  if a.category ≠ b.category then stringLt a.category b.category
  else if a.order ≠ b.order then decide (a.order < b.order)
  else decide (-a.priority ≤ -b.priority)

/-- Stable insertion sort; Python `list.sort` is stable, and a stable sort by
a total preorder is unique, so this computes exactly its result. -/
def insertStable (le : ResearchQuestion → ResearchQuestion → Bool)
    (x : ResearchQuestion) : List ResearchQuestion → List ResearchQuestion
  | [] => [x]
  | y :: ys => if le x y then x :: y :: ys else y :: insertStable le x ys

def stableSortBy (le : ResearchQuestion → ResearchQuestion → Bool) :
    List ResearchQuestion → List ResearchQuestion
  | [] => []
  | x :: xs => insertStable le x (stableSortBy le xs)

/-- `PlannerAgent._sort_questions`. -/
def sortQuestions (questions : List ResearchQuestion) : List ResearchQuestion :=
  if questions.isEmpty then questions
  else
    let st := questions.foldl
      (fun acc q => visit questions (questions.length + 1) q.id [] acc)
      ⟨[], []⟩
    stableSortBy sortKeyLe st.result

/-- The fallback plan built in the `except (json.JSONDecodeError, TypeError,
KeyError)` branch of `plan`. -/
def fallbackQuestion (topic freshId : String) (detected : SearchStrategy) :
    ResearchQuestion :=
  { id := freshId
    question := "What is " ++ topic ++ "?"
    priority := 5
    keywords := [topic]
    rationale := "Fundamental understanding"
    search_strategy := detected }

/-- `PlannerAgent.plan` after the LLM call, as a function of the abstracted
upstream outcome; `.error` marks an exception escaping to the caller. -/
def plan (topic freshId : String) (currentYear : Int) (outcome : UpstreamOutcome) :
    Except String (List ResearchQuestion) :=
  let detected := detectDomain topic
  match outcome with
  | .jsonError => .ok [fallbackQuestion topic freshId detected]
  | .notObject => .error "AttributeError"
  | .questionsNotList => .ok [fallbackQuestion topic freshId detected]
  | .object items =>
    match convertItems detected freshId currentYear items with
    | .error e =>
      if e = "KeyError" then .ok [fallbackQuestion topic freshId detected]
      else .error e
    | .ok questions => .ok (sortQuestions (deduplicateQuestions questions))

theorem mem_insertStable (le : ResearchQuestion → ResearchQuestion → Bool)
    (x a : ResearchQuestion) :
    ∀ l, a ∈ insertStable le x l ↔ (a = x ∨ a ∈ l) := by
  intro l
  induction l with
  | nil => simp [insertStable]
  | cons y ys ih =>
    rw [insertStable]
    by_cases h : le x y = true
    · rw [if_pos h]
      simp [List.mem_cons]
    · rw [if_neg h]
      simp only [List.mem_cons, ih]
      tauto

theorem mem_stableSortBy (le : ResearchQuestion → ResearchQuestion → Bool)
    (a : ResearchQuestion) :
    ∀ l, a ∈ stableSortBy le l ↔ a ∈ l := by
  intro l
  induction l with
  | nil => simp [stableSortBy]
  | cons x xs ih =>
    rw [stableSortBy, mem_insertStable, ih, List.mem_cons]

theorem visit_preserves (questions : List ResearchQuestion) (P : SortState → Prop)
    (hstep : ∀ (st1 : SortState) (q_id : String) (q : ResearchQuestion),
      questionMapLookup questions q_id = some q → P st1 →
      P ⟨q_id :: st1.visited, st1.result ++ [q]⟩) :
    ∀ (fuel : Nat) (q_id : String) (path : List String) (st : SortState),
      P st → P (visit questions fuel q_id path st) := by
  intro fuel
  induction fuel with
  | zero =>
    intro q_id path st h
    simpa [visit] using h
  | succ n ih =>
    intro q_id path st h
    have hfold : ∀ (deps : List String) (st' : SortState), P st' →
        P (deps.foldl (fun acc dep => visit questions n dep (q_id :: path) acc) st') := by
      intro deps
      induction deps with
      | nil => intro st' h'; simpa using h'
      | cons d ds ihd =>
        intro st' h'
        exact ihd _ (ih d (q_id :: path) st' h')
    rw [visit]
    split
    · exact h
    · split
      · exact h
      · split
        · exact h
        · rename_i q hq
          exact hstep _ _ _ hq (hfold q.dependencies st h)

theorem foldl_visit_preserves (questions : List ResearchQuestion) (P : SortState → Prop)
    (hstep : ∀ (st1 : SortState) (q_id : String) (q : ResearchQuestion),
      questionMapLookup questions q_id = some q → P st1 →
      P ⟨q_id :: st1.visited, st1.result ++ [q]⟩) :
    ∀ (qs : List ResearchQuestion) (st : SortState), P st →
      P (qs.foldl (fun acc x => visit questions (questions.length + 1) x.id [] acc) st) := by
  intro qs
  induction qs with
  | nil => intro st h; simpa using h
  | cons x xs ih =>
    intro st h
    exact ih _ (visit_preserves questions P hstep _ _ _ _ h)

theorem questionMapLookup_mem (questions : List ResearchQuestion) (i : String)
    (q : ResearchQuestion) (h : questionMapLookup questions i = some q) :
    q ∈ questions ∧ q.id = i := by
  have h1 := List.mem_of_find?_eq_some h
  have h2 := List.find?_some h
  exact ⟨List.mem_reverse.mp h1, by simpa using h2⟩

theorem questionMapLookup_isSome (questions : List ResearchQuestion)
    (q : ResearchQuestion) (hq : q ∈ questions) :
    (questionMapLookup questions q.id).isSome := by
  rw [questionMapLookup, List.find?_isSome]
  exact ⟨q, List.mem_reverse.mpr hq, by simp⟩

theorem visit_visits (questions : List ResearchQuestion) (n : Nat) (q_id : String)
    (st : SortState) (hq : (questionMapLookup questions q_id).isSome) :
    q_id ∈ (visit questions (n + 1) q_id [] st).visited := by
  rw [visit]
  split
  · rename_i h1
    simpa using h1
  · split
    · rename_i h2
      simp at h2
    · split
      · rename_i hlk
        rw [hlk] at hq
        simp at hq
      · simp

theorem sortFold_visits (questions : List ResearchQuestion) :
    ∀ (qs : List ResearchQuestion) (st : SortState) (q : ResearchQuestion),
      q ∈ qs → q ∈ questions →
      q.id ∈ (qs.foldl (fun acc x => visit questions (questions.length + 1) x.id [] acc) st).visited := by
  intro qs
  induction qs with
  | nil => intro st q hq; simp at hq
  | cons x xs ih =>
    intro st q hq hmem
    rcases List.mem_cons.mp hq with rfl | hq
    · have h1 : q.id ∈ (visit questions (questions.length + 1) q.id [] st).visited :=
        visit_visits questions _ q.id st (questionMapLookup_isSome questions q hmem)
      exact foldl_visit_preserves questions (fun s => q.id ∈ s.visited)
        (fun st1 i p _ h => List.mem_cons_of_mem _ h) xs _ h1
    · exact ih _ q hq hmem

theorem sortQuestions_subset (questions : List ResearchQuestion)
    (v : ResearchQuestion) (hv : v ∈ sortQuestions questions) : v ∈ questions := by
  rw [sortQuestions] at hv
  by_cases he : questions.isEmpty
  · rwa [if_pos he] at hv
  · rw [if_neg he, mem_stableSortBy] at hv
    have := foldl_visit_preserves questions (fun st => ∀ x ∈ st.result, x ∈ questions)
      (by
        intro st1 q_id q hq h
        intro x hx
        rcases List.mem_append.mp hx with hx | hx
        · exact h x hx
        · rcases List.mem_singleton.mp hx with rfl
          exact (questionMapLookup_mem questions q_id x hq).1)
      questions ⟨[], []⟩ (by intro x hx; simp at hx)
    exact this v hv

theorem sortQuestions_id_cover (questions : List ResearchQuestion)
    (q : ResearchQuestion) (hq : q ∈ questions) :
    ∃ p ∈ sortQuestions questions, p.id = q.id := by
  rw [sortQuestions]
  by_cases he : questions.isEmpty
  · rw [List.isEmpty_iff] at he
    subst he
    simp at hq
  · rw [if_neg (by simpa using he)]
    have hvisited := sortFold_visits questions questions ⟨[], []⟩ q hq hq
    have hinv := foldl_visit_preserves questions
      (fun st => ∀ i ∈ st.visited, ∃ p ∈ st.result, p.id = i)
      (by
        intro st1 q_id p hp h
        intro i hi
        rcases List.mem_cons.mp hi with rfl | hi
        · exact ⟨p, List.mem_append.mpr (Or.inr (List.mem_singleton.mpr rfl)),
            (questionMapLookup_mem questions i p hp).2⟩
        · rcases h i hi with ⟨x, hx, hxi⟩
          exact ⟨x, List.mem_append.mpr (Or.inl hx), hxi⟩)
      questions ⟨[], []⟩ (by intro i hi; simp at hi)
    rcases hinv q.id hvisited with ⟨p, hp, hpid⟩
    exact ⟨p, (mem_stableSortBy sortKeyLe p _).mpr hp, hpid⟩

/-- C8 (amended).  The produced plan has no dangling dependency ids provided
the deduplicated converted questions are already dependency-closed: the sort
neither drops a surviving id nor invents questions.  (Deduplication itself,
or dependency ids absent from the parsed output, can break closure — see the
counterexample.) -/
theorem plan_no_dangling_of_closed (topic freshId : String) (year : Int)
    (items : List UpstreamItem) (qs : List ResearchQuestion)
    (hconv : convertItems (detectDomain topic) freshId year items = .ok qs)
    (hclosed : ∀ q ∈ deduplicateQuestions qs, ∀ d ∈ q.dependencies,
      ∃ p ∈ deduplicateQuestions qs, p.id = d) :
    ∃ out, plan topic freshId year (.object items) = .ok out ∧
      ∀ q ∈ out, ∀ d ∈ q.dependencies, ∃ p ∈ out, p.id = d := by
  refine ⟨sortQuestions (deduplicateQuestions qs), ?_, ?_⟩
  · rw [plan]
    simp only [hconv]
  · intro q hq d hd
    have hq' := sortQuestions_subset _ _ hq
    rcases hclosed q hq' d hd with ⟨p, hp, hpid⟩
    rcases sortQuestions_id_cover _ p hp with ⟨p2, hp2, hp2id⟩
    exact ⟨p2, hp2, by rw [hp2id, hpid]⟩

def cexRawA : RawQuestion := { id := some "q1", question := "what is rust" }

def cexRawB : RawQuestion := { id := some "q2", question := "What is Rust?" }

def cexRawC : RawQuestion :=
  { id := some "q3", question := "how fast is rust code", dependencies := some ["q2"] }

/-- C8 counterexample.  `_deduplicate_questions` collapses `q2` into `q1`
(equal normalised signatures) but leaves `q3`'s dependency list `["q2"]`
untouched, so the returned plan references the id `q2` of a question that is
not in the plan. -/
theorem plan_dedup_dangling_dependency :
    (plan ("t") ("fid") 2026 (.object [.item cexRawA, .item cexRawB, .item cexRawC])).map
        (fun out => out.all (fun q => q.dependencies.all (fun d => out.any (fun p => p.id = d)))) =
      Except.ok false := by
  rfl

def witRawA : RawQuestion := { id := some "q1", question := "alpha beta" }

def witRawB : RawQuestion :=
  { id := some "q2", question := "totally different topic", dependencies := some ["q1"] }

def witQs : List ResearchQuestion :=
  [convertQuestion .general "fid" 2026 witRawA, convertQuestion .general "fid" 2026 witRawB]

/-- Witness for the amended C8 theorem at a concrete dependency-closed input. -/
theorem plan_no_dangling_of_closed_witness :
    convertItems (detectDomain "t") ("fid") 2026 [.item witRawA, .item witRawB] = .ok witQs ∧
    ∃ out, plan ("t") ("fid") 2026 (.object [.item witRawA, .item witRawB]) = .ok out ∧
      ∀ q ∈ out, ∀ d ∈ q.dependencies, ∃ p ∈ out, p.id = d :=
  ⟨rfl, plan_no_dangling_of_closed ("t") ("fid") 2026 [.item witRawA, .item witRawB] witQs rfl
    (by decide)⟩

/-- C6 (amended).  When the upstream reply fails JSON parsing — and likewise
when a caught `TypeError`/`KeyError` occurs during conversion — `plan`
returns exactly one root question carrying the goal text with no
dependencies.  (A reply that parses to a non-dict value, or contains non-dict
question entries, instead raises an uncaught `AttributeError` — see the
counterexample.) -/
theorem plan_parse_failure_fallback (topic freshId : String) (year : Int) :
    (plan topic freshId year .jsonError =
      .ok [fallbackQuestion topic freshId (detectDomain topic)]) ∧
    (plan topic freshId year .questionsNotList =
      .ok [fallbackQuestion topic freshId (detectDomain topic)]) ∧
    (∀ items, convertItems (detectDomain topic) freshId year items = .error "KeyError" →
      plan topic freshId year (.object items) =
        .ok [fallbackQuestion topic freshId (detectDomain topic)]) ∧
    (fallbackQuestion topic freshId (detectDomain topic)).question =
      "What is " ++ topic ++ "?" ∧
    (fallbackQuestion topic freshId (detectDomain topic)).dependencies = [] := by
  refine ⟨rfl, rfl, ?_, rfl, rfl⟩
  intro items hitems
  rw [plan]
  simp only [hitems]
  rfl

/-- Witness for the amended C6 theorem: a question dict missing the mandatory
`question` key raises a caught `KeyError` and yields the fallback plan. -/
theorem plan_parse_failure_fallback_witness :
    plan ("quantum computing") ("fid") 2026 (.object [.missingQuestion]) =
      .ok [fallbackQuestion ("quantum computing") ("fid")
        (detectDomain ("quantum computing"))] :=
  (plan_parse_failure_fallback ("quantum computing") ("fid") 2026).2.2.1 [.missingQuestion] rfl

/-- C6 counterexample.  An upstream reply that is valid JSON but not an
object (e.g. the bare literal `5`, which survives the brace-extraction step
unchanged) makes `data.get("questions", [])` raise `AttributeError`, which is
not in the caught exception tuple and escapes to the caller; and a reply that
parses to an object with no `questions` array yields an empty plan rather
than the single-root fallback. -/
theorem plan_malformed_output_escapes :
    plan ("t") ("fid") 2026 .notObject = .error ("AttributeError") ∧
    plan ("t") ("fid") 2026 (.object []) = .ok [] :=
  ⟨rfl, rfl⟩

end Planner

/-! ## Research workflow (`src/deepsearch/workflow.py`)

The LangGraph graph of `create_research_workflow` is embedded as an explicit
machine: `WNode` is the current graph node, `WState` carries the fields of
`ResearchState` that the nodes read or write, and one `Oracle` value per step
supplies the outputs of the external collaborators (planner LLM, researcher,
reflector LLM, writer LLM).  Edges follow the compiled graph: `plan →
research`, `research → (reflect | verify)` via `should_continue_researching`,
`reflect → research`, `verify → write`, `write → END`.  The initial state is
the one built in `_run_research` (`src/deepsearch/cli.py`): `iteration = 0`,
status `PENDING`, entry node `plan`. -/

namespace Workflow

inductive WNode where
  | planning | research | reflecting | verifying | writing | done
deriving DecidableEq, Repr

structure Oracle where
  plannerQuestions : List ResearchQuestion := []
  researchFindings : List Finding := []
  researchRecord : SearchRecord := { query := "", provider := "", results_count := 0 }
  reflection : ReflectionResult := { is_complete := true }
  report : String := ""
deriving Repr

structure WState where
  topic : String
  plan : List ResearchQuestion
  current_question_index : Nat
  completed_question_ids : List String
  findings : List Finding
  search_history : List SearchRecord
  iteration : Nat
  max_iterations : Nat
  reflection : Option ReflectionResult
  status : ResearchStatus
  verified_findings : List VerifiedFinding
  report : String
  node : WNode
deriving Repr

/-- `plan_node`. -/
def plan_node (o : Oracle) (s : WState) : WState :=
  { s with
    plan := o.plannerQuestions
    current_question_index := 0
    completed_question_ids := []
    status := .running }

/-- `research_node`, returning both the updated state and the question on
which the researcher producer was invoked (if any). -/
def research_node_exec (o : Oracle) (s : WState) : WState × Option ResearchQuestion :=
  match s.plan.get? s.current_question_index with
  | none => (s, none)
  | some question =>
    if question.dependencies ≠ [] ∧
        ¬ (∀ dep_id ∈ question.dependencies, dep_id ∈ s.completed_question_ids) then
      ({ s with current_question_index := s.current_question_index + 1 }, none)
    else
      ({ s with
          findings := s.findings ++ o.researchFindings
          search_history := s.search_history ++ [o.researchRecord]
          current_question_index := s.current_question_index + 1
          completed_question_ids := s.completed_question_ids ++ [question.id] },
        some question)

def research_node (o : Oracle) (s : WState) : WState :=
  (research_node_exec o s).1

/-- `reflect_node`. -/
def reflect_node (o : Oracle) (s : WState) : WState :=
  let reflection := o.reflection
  let plan := if reflection.new_questions.isEmpty then s.plan
    else s.plan ++ reflection.new_questions
  { s with
    reflection := some reflection
    plan := plan
    iteration := s.iteration + 1 }

/-- `verify_node`, reusing the verifier embedding. -/
def verify_node (s : WState) : WState :=
  { s with verified_findings := Verifier.verify s.findings }

/-- `write_node`. -/
def write_node (o : Oracle) (s : WState) : WState :=
  { s with report := o.report, status := .completed }

/-- `should_continue_researching`. -/
def should_continue_researching (s : WState) : String :=
  if s.max_iterations ≤ s.iteration then "verify"
  else if s.current_question_index < s.plan.length then "continue"
  else
    match s.reflection with
    | some reflection => if reflection.is_complete = false then "continue" else "verify"
    | none => "verify"

/-- One step of the compiled graph. -/
def stepW (o : Oracle) (s : WState) : WState :=
  match s.node with
  | .planning => { plan_node o s with node := .research }
  | .research =>
    let s1 := research_node o s
    if should_continue_researching s1 = "continue" then { s1 with node := .reflecting }
    else { s1 with node := .verifying }
  | .reflecting => { reflect_node o s with node := .research }
  | .verifying => { verify_node s with node := .writing }
  | .writing => { write_node o s with node := .done }
  | .done => s

def runW (s : WState) : List Oracle → WState
  | [] => s
  | o :: os => runW (stepW o s) os

/-- All states visited while consuming the oracle list, starting state
included. -/
def traceW (s : WState) : List Oracle → List WState
  | [] => [s]
  | o :: os => s :: traceW (stepW o s) os

/-- Number of executed reflection steps (steps taken from the `reflect`
node). -/
def reflectSteps (s : WState) : List Oracle → Nat
  | [] => 0
  | o :: os => (if s.node = .reflecting then 1 else 0) + reflectSteps (stepW o s) os

/-- Initial workflow state built in `_run_research`. -/
def initialState (topic : String) (n : Nat) : WState :=
  { topic := topic
    plan := []
    current_question_index := 0
    completed_question_ids := []
    findings := []
    search_history := []
    iteration := 0
    max_iterations := n
    reflection := none
    status := .pending
    verified_findings := []
    report := ""
    node := .planning }

theorem research_node_frame (o : Oracle) (s : WState) :
    (research_node o s).iteration = s.iteration ∧
    (research_node o s).max_iterations = s.max_iterations ∧
    (research_node o s).node = s.node := by
  refine ⟨?_, ?_, ?_⟩ <;>
    · rw [research_node, research_node_exec]
      split
      · rfl
      · split <;> rfl

theorem stepW_iteration (o : Oracle) (s : WState) :
    (stepW o s).iteration = s.iteration + (if s.node = .reflecting then 1 else 0) := by
  cases hn : s.node <;> simp only [stepW, hn]
  · simp [plan_node]
  · split <;> simp [(research_node_frame o s).1]
  · simp [reflect_node]
  · simp [verify_node]
  · simp [write_node]
  · simp [hn]

theorem stepW_max_iterations (o : Oracle) (s : WState) :
    (stepW o s).max_iterations = s.max_iterations := by
  cases hn : s.node <;> simp only [stepW, hn]
  · simp [plan_node]
  · split <;> simp [(research_node_frame o s).2.1]
  · simp [reflect_node]
  · simp [verify_node]
  · simp [write_node]

theorem stepW_node_reflecting (o : Oracle) (s : WState)
    (h : (stepW o s).node = .reflecting) :
    s.node = .research ∧ should_continue_researching (research_node o s) = "continue" := by
  cases hn : s.node <;> simp only [stepW, hn] at h
  · simp [plan_node] at h
  · by_cases hc : should_continue_researching (research_node o s) = "continue"
    · exact ⟨rfl, hc⟩
    · rw [if_neg hc] at h
      simp at h
  · simp [reflect_node] at h
  · simp [verify_node] at h
  · simp [write_node] at h
  · exact absurd h (by simp)

/-- The invariant behind C2: the iteration counter is within the budget, and
the reflect node is only ever entered with strictly remaining budget. -/
def IterInv (s : WState) : Prop :=
  s.iteration ≤ s.max_iterations ∧ (s.node = .reflecting → s.iteration < s.max_iterations)

theorem should_continue_bound (s : WState)
    (h : should_continue_researching s = "continue") :
    s.iteration < s.max_iterations := by
  rw [should_continue_researching] at h
  by_cases hle : s.max_iterations ≤ s.iteration
  · rw [if_pos hle] at h
    simp at h
  · exact Nat.lt_of_not_le hle

theorem stepW_IterInv (o : Oracle) (s : WState) (h : IterInv s) : IterInv (stepW o s) := by
  rcases h with ⟨h1, h2⟩
  constructor
  · rw [stepW_iteration, stepW_max_iterations]
    by_cases hr : s.node = .reflecting
    · rw [if_pos hr]
      exact Nat.succ_le_of_lt (h2 hr)
    · rw [if_neg hr]
      simpa using h1
  · intro hrefl
    obtain ⟨hn, hc⟩ := stepW_node_reflecting o s hrefl
    rw [stepW_iteration, stepW_max_iterations, hn]
    have hlt := should_continue_bound _ hc
    rw [(research_node_frame o s).1, (research_node_frame o s).2.1] at hlt
    simpa using hlt

theorem runW_IterInv : ∀ (os : List Oracle) (s : WState), IterInv s → IterInv (runW s os) := by
  intro os
  induction os with
  | nil => intro s h; simpa [runW] using h
  | cons o os ih => intro s h; exact ih _ (stepW_IterInv o s h)

theorem runW_max_iterations :
    ∀ (os : List Oracle) (s : WState), (runW s os).max_iterations = s.max_iterations := by
  intro os
  induction os with
  | nil => intro s; rfl
  | cons o os ih => intro s; rw [runW, ih, stepW_max_iterations]

theorem runW_iteration :
    ∀ (os : List Oracle) (s : WState),
      (runW s os).iteration = s.iteration + reflectSteps s os := by
  intro os
  induction os with
  | nil => intro s; simp [runW, reflectSteps]
  | cons o os ih =>
    intro s
    rw [runW, reflectSteps, ih, stepW_iteration]
    omega

theorem traceW_head : ∀ (os : List Oracle) (s : WState), (traceW s os).head? = some s := by
  intro os s
  cases os <;> rfl

theorem traceW_chain :
    ∀ (os : List Oracle) (s : WState),
      List.Chain' (fun a b => a.iteration ≤ b.iteration) (traceW s os) := by
  intro os
  induction os with
  | nil => intro s; simp [traceW]
  | cons o os ih =>
    intro s
    rw [traceW, List.chain'_cons']
    refine ⟨?_, ih _⟩
    intro y hy
    rw [traceW_head] at hy
    rcases Option.mem_some_iff.mp hy with rfl
    rw [stepW_iteration]
    omega

/-- C2.  Starting from the CLI's initial state with iteration budget `n`, the
iteration counter never decreases along any run, never exceeds `n`, and the
reflection node executes at most `n` times regardless of the reflector's
completeness signals. -/
theorem iteration_bounded_and_monotone (topic : String) (n : Nat) (os : List Oracle) :
    List.Chain' (fun a b => a.iteration ≤ b.iteration) (traceW (initialState topic n) os) ∧
    (runW (initialState topic n) os).iteration ≤ n ∧
    reflectSteps (initialState topic n) os ≤ n := by
  have hinv : IterInv (initialState topic n) := ⟨Nat.zero_le n, by simp [initialState]⟩
  have hrun := runW_IterInv os _ hinv
  have hmax := runW_max_iterations os (initialState topic n)
  have hbound : (runW (initialState topic n) os).iteration ≤ n := by
    have h1 := hrun.1
    rw [hmax] at h1
    exact h1
  refine ⟨traceW_chain os _, hbound, ?_⟩
  have h2 := runW_iteration os (initialState topic n)
  have h0 : (initialState topic n).iteration = 0 := rfl
  omega

/-- C5.  `should_continue_researching` returns only `continue` or `verify`,
and it returns `continue` exactly when the budget is not exhausted and either
the cursor is still inside the plan or the last reflection reported
incomplete — the functional content of the source's check order (budget
first, then cursor, then reflection, else stop). -/
theorem should_continue_precedence (s : WState) :
    (should_continue_researching s = "continue" ∨ should_continue_researching s = "verify") ∧
    (should_continue_researching s = "continue" ↔
      s.iteration < s.max_iterations ∧
        (s.current_question_index < s.plan.length ∨
          ∃ r, s.reflection = some r ∧ r.is_complete = false)) := by
  rw [should_continue_researching]
  by_cases h1 : s.max_iterations ≤ s.iteration
  · rw [if_pos h1]
    refine ⟨Or.inr rfl, ?_, ?_⟩
    · intro h
      exact absurd h (by decide)
    · rintro ⟨hlt, _⟩
      omega
  · rw [if_neg h1]
    by_cases h2 : s.current_question_index < s.plan.length
    · rw [if_pos h2]
      exact ⟨Or.inl rfl, fun _ => ⟨Nat.lt_of_not_le h1, Or.inl h2⟩, fun _ => rfl⟩
    · rw [if_neg h2]
      cases hr : s.reflection with
      | none =>
        refine ⟨Or.inr rfl, ?_, ?_⟩
        · intro h
          exact absurd h (by decide)
        · rintro ⟨_, h | ⟨r, hr2, _⟩⟩
          · exact absurd h h2
          · exact absurd hr2 (by simp)
      | some r =>
        by_cases hc : r.is_complete = false
        · constructor
          · refine Or.inl ?_
            show (if r.is_complete = false then "continue" else "verify") = "continue"
            rw [if_pos hc]
          · constructor
            · intro _
              exact ⟨Nat.lt_of_not_le h1, Or.inr ⟨r, rfl, hc⟩⟩
            · intro _
              show (if r.is_complete = false then "continue" else "verify") = "continue"
              rw [if_pos hc]
        · constructor
          · refine Or.inr ?_
            show (if r.is_complete = false then "continue" else "verify") = "verify"
            rw [if_neg hc]
          · constructor
            · intro h
              have h' : (if r.is_complete = false then "continue" else "verify") = "continue" := h
              rw [if_neg hc] at h'
              exact absurd h' (by decide)
            · rintro ⟨_, h | ⟨r2, hr2, hr2c⟩⟩
              · exact absurd h h2
              · rcases Option.some_inj.mp hr2 with rfl
                exact absurd hr2c hc

/-- C4.  The researcher producer is invoked on a question only when that
question sits at the cursor and every one of its dependency ids is already in
the completed set; a question with an unsatisfied dependency is passed over
by advancing the cursor without any other state change. -/
theorem research_dependency_gating (o : Oracle) (s : WState) :
    (∀ p, (research_node_exec o s).2 = some p →
      p ∈ s.plan ∧ ∀ d ∈ p.dependencies, d ∈ s.completed_question_ids) ∧
    (∀ p, s.plan.get? s.current_question_index = some p →
      (∃ d ∈ p.dependencies, d ∉ s.completed_question_ids) →
      research_node_exec o s =
        ({ s with current_question_index := s.current_question_index + 1 }, none)) := by
  constructor
  · intro p hp
    rw [research_node_exec] at hp
    split at hp
    · simp at hp
    · rename_i q hq
      split at hp
      · simp at hp
      · rename_i hcond
        rcases Option.some_inj.mp hp with rfl
        constructor
        · exact List.get?_mem hq
        · simp only [not_and_or, not_not] at hcond
          rcases hcond with hnil | hall
          · rw [hnil]
            intro d hd
            simp at hd
          · exact hall
  · intro p hp hex
    rw [research_node_exec]
    split
    · rename_i hq
      rw [hq] at hp
      simp at hp
    · rename_i q hq
      rw [hq] at hp
      rcases Option.some_inj.mp hp with rfl
      rw [if_pos]
      constructor
      · rcases hex with ⟨d, hd, _⟩
        intro hnil
        rw [hnil] at hd
        simp at hd
      · intro hall
        rcases hex with ⟨d, hd, hnc⟩
        exact hnc (hall d hd)

def witQuestion : ResearchQuestion := { id := "q1", question := "what is x" }

def witOracle : Oracle := {}

def witState : WState :=
  { topic := "t"
    plan := [witQuestion]
    current_question_index := 0
    completed_question_ids := []
    findings := []
    search_history := []
    iteration := 0
    max_iterations := 3
    reflection := none
    status := .running
    verified_findings := []
    report := ""
    node := .research }

/-- Witness for C4 at a concrete ready question. -/
theorem research_dependency_gating_witness :
    (research_node_exec witOracle witState).2 = some witQuestion ∧
    witQuestion ∈ witState.plan ∧
    ∀ d ∈ witQuestion.dependencies, d ∈ witState.completed_question_ids :=
  ⟨rfl, (research_dependency_gating witOracle witState).1 witQuestion rfl⟩

end Workflow

/-! ## Persistence store (`src/deepsearch/storage.py`)

The SQLite table `research_jobs` becomes an association list from job id to
`JobRow`.  Columns that store JSON text are modelled by `Option` of the
decoded shape that `json.dumps`/`json.loads` round-trips (with `none` for SQL
`NULL`); the pieces whose pydantic re-validation can genuinely fail — enum
strings and the `verification_status` literal — are kept in encoded form, and
`rowToState` (`_row_to_state`) returns `none` when such a validation raises.
`save_state` is a SQL `UPDATE`: it rewrites every row whose id matches and
creates nothing.  The audit columns (`created_at`/`updated_at`) and the
columns `topic`, `depth`, `max_iterations` are never touched by `save_state`,
exactly as in the source.  `ResearchState` here is the `TypedDict` of
`state.py` with the `.get` defaults applied; `_row_to_state` omits
`completed_question_ids`, so a loaded state carries the default `[]`. -/

namespace Storage

structure EncodedQuestion where
  id : String
  question : String
  priority : Int
  keywords : List String
  rationale : String
  category : String
  dependencies : List String
  order : Int
  search_strategy : String
  search_operators : List String
deriving DecidableEq, Repr

def encodeQuestion (q : ResearchQuestion) : EncodedQuestion :=
  { id := q.id
    question := q.question
    priority := q.priority
    keywords := q.keywords
    rationale := q.rationale
    category := q.category
    dependencies := q.dependencies
    order := q.order
    search_strategy := q.search_strategy.value
    search_operators := q.search_operators }

def decodeQuestion (e : EncodedQuestion) : Option ResearchQuestion :=
  (SearchStrategy.ofValue e.search_strategy).map (fun strategy =>
    { id := e.id
      question := e.question
      priority := e.priority
      keywords := e.keywords
      rationale := e.rationale
      category := e.category
      dependencies := e.dependencies
      order := e.order
      search_strategy := strategy
      search_operators := e.search_operators })

theorem decodeQuestion_encodeQuestion (q : ResearchQuestion) :
    decodeQuestion (encodeQuestion q) = some q := by
  rw [decodeQuestion, encodeQuestion]
  simp only [searchStrategy_ofValue_value]
  rfl

structure EncodedReflection where
  is_complete : Bool
  gaps : List String
  new_questions : List EncodedQuestion
  reasoning : String
deriving DecidableEq, Repr

def decodeAll {α β : Type} (dec : α → Option β) : List α → Option (List β)
  | [] => some []
  | x :: xs =>
    match dec x with
    | none => none
    | some y => (decodeAll dec xs).map (fun ys => y :: ys)

theorem decodeAll_of_forall {α β : Type} (dec : α → Option β) (enc : β → α) :
    ∀ (l : List β), (∀ b ∈ l, dec (enc b) = some b) →
      decodeAll dec (l.map enc) = some l := by
  intro l
  induction l with
  | nil => intro _; rfl
  | cons x xs ih =>
    intro h
    rw [List.map_cons, decodeAll, h x (List.mem_cons_self _ _),
      ih (fun b hb => h b (List.mem_cons_of_mem _ hb))]
    rfl

def encodeReflection (r : ReflectionResult) : EncodedReflection :=
  { is_complete := r.is_complete
    gaps := r.gaps
    new_questions := r.new_questions.map encodeQuestion
    reasoning := r.reasoning }

def decodeReflection (e : EncodedReflection) : Option ReflectionResult :=
  (decodeAll decodeQuestion e.new_questions).map (fun qs =>
    { is_complete := e.is_complete
      gaps := e.gaps
      new_questions := qs
      reasoning := e.reasoning })

theorem decodeReflection_encodeReflection (r : ReflectionResult) :
    decodeReflection (encodeReflection r) = some r := by
  rw [decodeReflection, encodeReflection]
  simp only [decodeAll_of_forall decodeQuestion encodeQuestion r.new_questions
    (fun b _ => decodeQuestion_encodeQuestion b)]
  rfl

/-- Re-validation of the `Literal["confirmed", "disputed", "unverified"]`
field when `VerifiedFinding(**v)` is rebuilt by `_row_to_state`. -/
def decodeVerifiedFinding (v : VerifiedFinding) : Option VerifiedFinding :=
  if v.verification_status = "confirmed" ∨ v.verification_status = "disputed" ∨
      v.verification_status = "unverified" then some v
  else none

theorem decodeVerifiedFinding_valid (v : VerifiedFinding)
    (h : v.verification_status = "confirmed" ∨ v.verification_status = "disputed" ∨
      v.verification_status = "unverified") :
    decodeVerifiedFinding v = some v := by
  rw [decodeVerifiedFinding, if_pos h]

structure JobRow where
  topic : String
  depth : String
  status : String
  plan_json : Option (List EncodedQuestion) := none
  current_question_index : Nat := 0
  findings_json : Option (List Finding) := none
  search_history_json : Option (List SearchRecord) := none
  iteration : Nat := 0
  max_iterations : Nat := 5
  reflection_json : Option EncodedReflection := none
  verified_findings_json : Option (List VerifiedFinding) := none
  conflicts_json : Option (List Conflict) := none
  report : Option String := none
  report_sections_json : Option (List ReportSection) := none
  error : Option String := none
deriving Repr

structure ResearchState where
  job_id : String
  topic : String
  depth : String
  status : ResearchStatus
  plan : List ResearchQuestion := []
  current_question_index : Nat := 0
  completed_question_ids : List String := []
  findings : List Finding := []
  search_history : List SearchRecord := []
  iteration : Nat := 0
  max_iterations : Nat := 5
  reflection : Option ReflectionResult := none
  verified_findings : List VerifiedFinding := []
  conflicts : List Conflict := []
  report : Option String := none
  report_sections : List ReportSection := []
  error : Option String := none
deriving Repr

def Store := List (String × JobRow)

/-- `Storage.create_job`: INSERT of a fresh row with column defaults. -/
def create_job (store : Store) (job_id topic depth : String)
    (max_iterations : Nat) : Store :=
  (job_id,
    { topic := topic
      depth := depth
      status := ResearchStatus.pending.value
      max_iterations := max_iterations }) :: store

/-- The SET clause of the `UPDATE research_jobs` statement in `save_state`. -/
def updatedRow (state : ResearchState) (row : JobRow) : JobRow :=
  { row with
    status := state.status.value
    plan_json := some (state.plan.map encodeQuestion)
    current_question_index := state.current_question_index
    findings_json := some state.findings
    search_history_json := some state.search_history
    iteration := state.iteration
    reflection_json := state.reflection.map encodeReflection
    verified_findings_json := some state.verified_findings
    conflicts_json := some state.conflicts
    report := state.report
    report_sections_json := some state.report_sections
    error := state.error }

/-- `Storage.save_state`: update-in-place of every row whose id matches
(`WHERE id = ?`); no row is ever created. -/
def save_state (state : ResearchState) (store : Store) : Store :=
  store.map (fun entry =>
    if entry.1 = state.job_id then (entry.1, updatedRow state entry.2) else entry)

/-- The `reflection_json` column: `NULL` loads as `None`, otherwise the JSON
is re-validated into a `ReflectionResult`. -/
def decodeReflectionColumn (c : Option EncodedReflection) :
    Option (Option ReflectionResult) :=
  match c with
  | none => some none
  | some er => (decodeReflection er).map some

theorem decodeReflectionColumn_encode (r : Option ReflectionResult) :
    decodeReflectionColumn (r.map encodeReflection) = some r := by
  cases r with
  | none => rfl
  | some x =>
    show (decodeReflection (encodeReflection x)).map some = some (some x)
    rw [decodeReflection_encodeReflection]
    rfl

/-- `Storage._row_to_state`; `none` models a raised re-validation error. -/
def rowToState (job_id : String) (row : JobRow) : Option ResearchState := do
  let status ← ResearchStatus.ofValue row.status
  let plan ← decodeAll decodeQuestion (row.plan_json.getD [])
  let reflection ← decodeReflectionColumn row.reflection_json
  let verified ← decodeAll decodeVerifiedFinding (row.verified_findings_json.getD [])
  pure
    { job_id := job_id
      topic := row.topic
      depth := row.depth
      status := status
      plan := plan
      current_question_index := row.current_question_index
      completed_question_ids := []
      findings := row.findings_json.getD []
      search_history := row.search_history_json.getD []
      iteration := row.iteration
      max_iterations := row.max_iterations
      reflection := reflection
      verified_findings := verified
      conflicts := row.conflicts_json.getD []
      report := row.report
      report_sections := row.report_sections_json.getD []
      error := row.error }

/-- `Storage.load_state`: `SELECT * ... WHERE id = ?`, first matching row. -/
def load_state (job_id : String) (store : Store) : Option ResearchState :=
  match store.find? (fun entry => entry.1 = job_id) with
  | none => none
  | some entry => rowToState job_id entry.2

theorem save_state_find (store : Store) (state : ResearchState) :
    (save_state state store).find? (fun entry => entry.1 = state.job_id) =
      (store.find? (fun entry => entry.1 = state.job_id)).map
        (fun entry => (entry.1, updatedRow state entry.2)) := by
  induction store with
  | nil => rfl
  | cons e rest ih =>
    rw [save_state, List.map_cons]
    by_cases hk : e.1 = state.job_id
    · rw [if_pos hk]
      rw [List.find?_cons_of_pos _ (by simpa using hk),
        List.find?_cons_of_pos _ (by simpa using hk)]
      rfl
    · rw [if_neg hk]
      rw [List.find?_cons_of_neg _ (by simpa using hk),
        List.find?_cons_of_neg _ (by simpa using hk)]
      exact ih

theorem decodeAll_verified (l : List VerifiedFinding)
    (h : ∀ v ∈ l, v.verification_status = "confirmed" ∨ v.verification_status = "disputed" ∨
      v.verification_status = "unverified") :
    decodeAll decodeVerifiedFinding l = some l := by
  induction l with
  | nil => rfl
  | cons v vs ih =>
    rw [decodeAll, decodeVerifiedFinding_valid v (h v (List.mem_cons_self _ _)),
      ih (fun b hb => h b (List.mem_cons_of_mem _ hb))]
    rfl

theorem rowToState_updatedRow (state : ResearchState) (row : JobRow)
    (hvalid : ∀ v ∈ state.verified_findings,
      v.verification_status = "confirmed" ∨ v.verification_status = "disputed" ∨
        v.verification_status = "unverified") :
    rowToState state.job_id (updatedRow state row) = some
      { job_id := state.job_id
        topic := row.topic
        depth := row.depth
        status := state.status
        plan := state.plan
        current_question_index := state.current_question_index
        completed_question_ids := []
        findings := state.findings
        search_history := state.search_history
        iteration := state.iteration
        max_iterations := row.max_iterations
        reflection := state.reflection
        verified_findings := state.verified_findings
        conflicts := state.conflicts
        report := state.report
        report_sections := state.report_sections
        error := state.error } := by
  have hplan : decodeAll decodeQuestion (state.plan.map encodeQuestion) = some state.plan :=
    decodeAll_of_forall decodeQuestion encodeQuestion state.plan
      (fun b _ => decodeQuestion_encodeQuestion b)
  have hverified := decodeAll_verified state.verified_findings hvalid
  rw [rowToState]
  simp only [updatedRow, researchStatus_ofValue_value, Option.getD_some, hplan,
    hverified, decodeReflectionColumn_encode]
  rfl

/-- C3.  If a row for the state's job id exists, `save_state` followed by
`load_state` succeeds and reproduces the saved plan (hence its length), the
iteration counter and the status.  The validity hypothesis on
`verification_status` is the pydantic `Literal` invariant every constructed
`VerifiedFinding` satisfies. -/
theorem save_load_roundtrip (store : Store) (state : ResearchState)
    (hrow : (store.find? (fun entry => entry.1 = state.job_id)).isSome)
    (hvalid : ∀ v ∈ state.verified_findings,
      v.verification_status = "confirmed" ∨ v.verification_status = "disputed" ∨
        v.verification_status = "unverified") :
    ∃ loaded, load_state state.job_id (save_state state store) = some loaded ∧
      loaded.plan.length = state.plan.length ∧
      loaded.iteration = state.iteration ∧
      loaded.status = state.status := by
  rcases Option.isSome_iff_exists.mp hrow with ⟨entry, hentry⟩
  have hload : load_state state.job_id (save_state state store) =
      rowToState state.job_id (updatedRow state entry.2) := by
    rw [load_state, save_state_find, hentry]
    rfl
  rw [rowToState_updatedRow state entry.2 hvalid] at hload
  exact ⟨_, hload, rfl, rfl, rfl⟩

def exState : ResearchState :=
  { job_id := "job1"
    topic := "t"
    depth := "balanced"
    status := .running
    plan := [{ id := "q1", question := "what is x" }]
    iteration := 2 }

def exStore : Store := create_job [] "job1" "t" "balanced" 5

/-- Witness for C3 on a freshly created store. -/
theorem save_load_roundtrip_witness :
    (exStore.find? (fun entry => entry.1 = exState.job_id)).isSome = true ∧
    ∃ loaded, load_state exState.job_id (save_state exState exStore) = some loaded ∧
      loaded.plan.length = exState.plan.length ∧
      loaded.iteration = exState.iteration ∧
      loaded.status = exState.status :=
  ⟨rfl, save_load_roundtrip exStore exState rfl (by simp [exState])⟩

/-- C10.  `save_state` with a job id that was never inserted leaves the store
completely unchanged (its UPDATE matches no row and inserts nothing), and a
subsequent `load_state` with that id returns `None`; the save/load round-trip
guarantee therefore only holds for ids previously created via `create_job`. -/
theorem save_state_of_absent (state : ResearchState) :
    ∀ (store : Store), store.find? (fun entry => entry.1 = state.job_id) = none →
      save_state state store = store := by
  intro store
  induction store with
  | nil => intro _; rfl
  | cons e rest ih =>
    intro habs
    have hall := List.find?_eq_none.mp habs
    have h1 : ¬ (e.1 = state.job_id) := by
      simpa using hall e (List.mem_cons_self _ _)
    have h2 : rest.find? (fun entry => entry.1 = state.job_id) = none :=
      List.find?_eq_none.mpr (fun x hx => hall x (List.mem_cons_of_mem _ hx))
    have h3 := ih h2
    rw [save_state] at h3 ⊢
    rw [List.map_cons, if_neg h1, h3]

theorem save_absent_id_noop (store : Store) (state : ResearchState)
    (habs : store.find? (fun entry => entry.1 = state.job_id) = none) :
    save_state state store = store ∧
    load_state state.job_id (save_state state store) = none := by
  have hsave := save_state_of_absent state store habs
  refine ⟨hsave, ?_⟩
  rw [load_state, hsave, habs]

def exAbsentState : ResearchState :=
  { job_id := "jobB", topic := "t", depth := "quick", status := .running }

/-- Witness for C10: saving under an id the store never created. -/
theorem save_absent_id_noop_witness :
    save_state exAbsentState exStore = exStore ∧
    load_state exAbsentState.job_id (save_state exAbsentState exStore) = none :=
  save_absent_id_noop exStore exAbsentState rfl

end Storage

end DeepSearch

/-! ## Thinking engine (`src/deep_thinking/state.py`, `workflow.py`, `cli.py`,
`agents/fact_checker.py`)

The five-phase pipeline.  Each `ThinkingEngine.run_phase_*` method mutates the
task and sets its phase; every external collaborator output (anchor agent,
generation LLM, adversarial critique, council, fact checker, synthesis LLM)
is a field of `ThinkOracle`.  `cliBodySnapshots` is one iteration of the
`while True` task loop of the `think` command (`cli.py`): the list of task
states observed after each phase assignment, in execution order. -/

namespace DeepThinking

inductive ThinkingPhase where
  | pending | anchored | generated | critiqued | verified | synthesized
deriving DecidableEq, Repr

/-- Position of a phase in the fixed order of §4.3. -/
def ThinkingPhase.idx : ThinkingPhase → Nat
  | .pending => 0
  | .anchored => 1
  | .generated => 2
  | .critiqued => 3
  | .verified => 4
  | .synthesized => 5

inductive VerificationStatus where
  | confirmed | disputed | unverified
deriving DecidableEq, Repr

def VerificationStatus.ofValue (s : String) : Option VerificationStatus :=
  if s = "confirmed" then some .confirmed
  else if s = "disputed" then some .disputed
  else if s = "unverified" then some .unverified
  else none

structure VerifiedClaim where
  claim : String
  status : VerificationStatus
  source_url : Option String := none
  notes : String := ""
deriving DecidableEq, Repr

structure CritiquePoint where
  severity : String := "medium"
  critique : String
  suggestion : String := ""
deriving DecidableEq, Repr

structure CouncilPosition where
  expert_name : String
  perspective : String
  position : String
  rebuttals : List String := []
deriving DecidableEq, Repr

structure AnchorOutput where
  original_topic : String
  anchored_topic : String
  sources : List String := []
deriving DecidableEq, Repr

structure ThinkingTask where
  id : String
  topic : String
  anchors : List String := []
  phase : ThinkingPhase := .pending
  confidence : Option Rat := none
  unverified_claims : List String := []
  council_triggered : Bool := false
  completed_at : Option String := none
  anchor_output : Option AnchorOutput := none
  generation_output : Option String := none
  critique_points : List CritiquePoint := []
  council_positions : List CouncilPosition := []
  verified_claims : List VerifiedClaim := []
  synthesis : Option String := none
deriving DecidableEq, Repr

structure ThinkOracle where
  anchors : List String := []
  anchor_output : Option AnchorOutput := none
  generationText : String := ""
  critiquePoints : List CritiquePoint := []
  critiqueConfidence : Rat := 1/2
  shouldCouncil : Bool := false
  councilPositions : List CouncilPosition := []
  verifiedClaims : List VerifiedClaim := []
  unverifiedTexts : List String := []
  oppositions : List String := []
  synthesisText : String := ""
  synthesisConfidence : Option Rat := none
  now : String := ""
deriving Repr

/-- Phase A half of `run_phase_a_b`: `anchor_single_task` only rewrites the
anchoring fields (supplied by the oracle), then the phase is set. -/
def anchorPhase (o : ThinkOracle) (t : ThinkingTask) : ThinkingTask :=
  { t with anchors := o.anchors, anchor_output := o.anchor_output, phase := .anchored }

/-- Phase B half of `run_phase_a_b`. -/
def generatePhase (o : ThinkOracle) (t : ThinkingTask) : ThinkingTask :=
  { t with generation_output := some o.generationText, phase := .generated }

def run_phase_a_b (o : ThinkOracle) (t : ThinkingTask) : ThinkingTask :=
  generatePhase o (anchorPhase o t)

/-- `run_phase_c` (checkpoint 1): critique fields, optional council branch
(which does not touch the phase), then the phase is set. -/
def run_phase_c (o : ThinkOracle) (t : ThinkingTask) : ThinkingTask × Bool :=
  let t1 := { t with critique_points := o.critiquePoints,
                     confidence := some o.critiqueConfidence }
  let t2 := if o.shouldCouncil then
      { t1 with council_triggered := true, council_positions := o.councilPositions }
    else t1
  ({ t2 with phase := .critiqued }, o.shouldCouncil)

/-- `run_phase_d` (checkpoint 2): verification results plus oppositions
appended to the critique list as low-severity items, then the phase is set. -/
def run_phase_d (o : ThinkOracle) (t : ThinkingTask) : ThinkingTask :=
  let t1 := { t with verified_claims := o.verifiedClaims,
                     unverified_claims := o.unverifiedTexts }
  let t2 := { t1 with critique_points := t1.critique_points ++
      o.oppositions.map (fun opp =>
        ({ severity := "low"
           critique := "[反对意见] " ++ opp
           suggestion := "Consider incorporating this perspective" } : CritiquePoint)) }
  { t2 with phase := .verified }

/-- `run_phase_e`: synthesis text, optional parsed CONFIDENCE score (absent
marker or a failed `float()` leaves the confidence untouched), then the
terminal phase is set. -/
def run_phase_e (o : ThinkOracle) (t : ThinkingTask) : ThinkingTask :=
  let t1 :=
    match o.synthesisConfidence with
    | some c => { t with synthesis := some o.synthesisText, confidence := some c }
    | none => { t with synthesis := some o.synthesisText }
  { t1 with phase := .synthesized, completed_at := some o.now }

/-- One iteration of the `while True` task loop in `_run_session`
(`cli.py`): the sequence of task states observed after each phase
assignment. -/
def cliBodySnapshots (o : ThinkOracle) (t : ThinkingTask) : List ThinkingTask :=
  let s1 := if t.phase = .pending ∨ t.phase = .anchored then
      [anchorPhase o t, generatePhase o (anchorPhase o t)]
    else []
  let t1 := s1.getLastD t
  let s2 := if t1.phase = .generated then [(run_phase_c o t1).1] else []
  let t2 := s2.getLastD t1
  let s3 := if t2.phase = .critiqued then [run_phase_d o t2] else []
  let t3 := s3.getLastD t2
  let s4 := if t3.phase = .verified then [run_phase_e o t3] else []
  s1 ++ s2 ++ s3 ++ s4

theorem anchorPhase_phase (o : ThinkOracle) (t : ThinkingTask) :
    (anchorPhase o t).phase = .anchored := rfl

theorem generatePhase_phase (o : ThinkOracle) (t : ThinkingTask) :
    (generatePhase o t).phase = .generated := rfl

theorem run_phase_c_phase (o : ThinkOracle) (t : ThinkingTask) :
    ((run_phase_c o t).1).phase = .critiqued := rfl

theorem run_phase_d_phase (o : ThinkOracle) (t : ThinkingTask) :
    (run_phase_d o t).phase = .verified := rfl

theorem run_phase_e_phase (o : ThinkOracle) (t : ThinkingTask) :
    (run_phase_e o t).phase = .synthesized := rfl

/-- C7.  Along one pass of the CLI task loop, from any starting phase, the
observed phase sequence moves only forward along the fixed order
`PENDING → ANCHORED → GENERATED → CRITIQUED → VERIFIED → SYNTHESIZED` (each
assignment either advances to the successor phase or re-sets the current one,
as re-anchoring an `ANCHORED` task does), and a task that is not yet terminal
ends the pass `SYNTHESIZED`. -/
theorem phase_monotone_in_task_loop (o : ThinkOracle) (t : ThinkingTask) :
    List.Chain' (fun a b => b.phase.idx = a.phase.idx + 1 ∨ b.phase = a.phase)
      (t :: cliBodySnapshots o t) ∧
    (t.phase ≠ .synthesized →
      ((cliBodySnapshots o t).getLast?.map (fun x => x.phase)) = some .synthesized) := by
  cases ht : t.phase <;>
    simp [cliBodySnapshots, ht, anchorPhase_phase, generatePhase_phase, run_phase_c_phase,
      run_phase_d_phase, run_phase_e_phase, ThinkingPhase.idx, List.chain'_cons]

/-! ### Fact checker (`src/deep_thinking/agents/fact_checker.py`)

`FactCheckAgent._verify_single_claim`.  `SearchOutcome.raised` models the
search call throwing (caught by the surrounding `except Exception`);
`JudgeOutcome` models the verification LLM reply: `raised` for a call/parse
exception, otherwise the parsed JSON fields (with `none` for absent keys,
whose `.get` defaults apply).  An invalid status string makes the
`VerificationStatus(...)` cast raise, also caught by `except Exception`. -/

structure SearchResult where
  title : String
  url : String
  snippet : String
deriving DecidableEq, Repr

inductive SearchOutcome where
  | raised
  | results (rs : List SearchResult)
deriving DecidableEq, Repr

inductive JudgeOutcome where
  | raised
  | judged (status : Option String) (source_url : Option String) (notes : Option String)
deriving DecidableEq, Repr

def verifySingleClaim (claim : String) (search : SearchOutcome)
    (judge : JudgeOutcome) : VerifiedClaim :=
  match search with
  | .raised =>
    { claim := claim, status := .unverified, notes := "Verification failed due to error" }
  | .results [] =>
    { claim := claim, status := .unverified, notes := "No search results found" }
  | .results (_ :: _) =>
    match judge with
    | .raised =>
      { claim := claim, status := .unverified, notes := "Verification failed due to error" }
    | .judged status source_url notes =>
      match VerificationStatus.ofValue (status.getD "unverified") with
      | some st =>
        { claim := claim, status := st, source_url := source_url, notes := notes.getD "" }
      | none =>
        { claim := claim, status := .unverified, notes := "Verification failed due to error" }

/-- C9.  An empty search result list always yields status `unverified` (never
`confirmed`) with the explanatory note `"No search results found"`; it is
processed as a valid response, distinguished from the exception path and
independent of any verification-LLM output. -/
theorem empty_results_unverified (claim : String) (judge : JudgeOutcome) :
    verifySingleClaim claim (.results []) judge =
      { claim := claim, status := .unverified, source_url := none,
        notes := "No search results found" } ∧
    (verifySingleClaim claim (.results []) judge).status ≠ .confirmed ∧
    (verifySingleClaim claim (.results []) judge).notes ≠ "" ∧
    (verifySingleClaim claim (.results []) judge).notes ≠
      (verifySingleClaim claim .raised judge).notes :=
  ⟨rfl, by simp [verifySingleClaim], by simp [verifySingleClaim],
    by simp [verifySingleClaim]⟩

end DeepThinking
